import Mathlib

/-
Verification of the owp-registry Solana program (Open World Protocol).

The development shallowly embeds:
  * the fixed-layout World Record codec (src/crates/owp-registry-types/src/lib.rs,
    mirrored as the `state` module of the on-chain program): the `WorldEntry`
    structure, its borsh serialization (fixed byte arrays written verbatim,
    u16/u64 little-endian) and deserialization (field by field, exact
    consumption, as borsh `try_from_slice` behaves);
  * the instruction decoder (src/programs/owp-registry/src/instruction.rs):
    borsh enum decoding of `RegistryInstruction` with u8 variant tag,
    u32-length-prefixed UTF-8 strings and 0/1-tagged options;
  * the three handlers of the processor
    (src/programs/owp-registry/src/processor.rs): `register_world`,
    `update_world`, `delist_world`, following the source's check order and
    error mapping exactly.

Bytes are modelled as natural numbers; Rust `String` values are modelled by
their UTF-8 byte lists.  Host-supplied primitives (program-derived-address
search, clock, rent, the system program's create-account) are not code of
this repository: they are modelled as an injected `HostEnv` interface plus a
`createAccount` primitive, following spec section 6's description of the host
boundary.  Each handler is a pure function from the account list to either a
typed error or the updated account list; the host grants all-or-nothing
commit semantics, so an error result leaves every account unchanged (and in
the source every storage write indeed happens only after all checks pass).
-/

/-- A byte buffer: each element models one u8 (values are kept below 256 by
construction wherever the source guarantees it). -/
abbrev Bytes := List Nat

/-- b"world", the PDA seed prefix (src/programs/owp-registry/src/lib.rs). -/
def SEED_WORLD : Bytes := [119, 111, 114, 108, 100]

/-- b"OWPREG01", the record magic (owp-registry-types). -/
def WORLD_ENTRY_MAGIC : Bytes := [79, 87, 80, 82, 69, 71, 48, 49]

def WORLD_ENTRY_VERSION : Nat := 1

def NAME_LEN : Nat := 32
def ENDPOINT_LEN : Nat := 64
def METADATA_URI_LEN : Nat := 128

def NAME_MAX_LEN : Nat := 32
def ENDPOINT_MAX_LEN : Nat := 64
def METADATA_URI_MAX_LEN : Nat := 128

/-- The stored World Record (struct `WorldEntry` in owp-registry-types). -/
structure WorldEntry where
  magic : Bytes
  version : Nat
  bump : Nat
  world_id : Bytes
  authority : Bytes
  name : Bytes
  endpoint : Bytes
  game_port : Nat
  asset_port : Nat
  token_mint : Bytes
  dbc_pool : Bytes
  metadata_uri : Bytes
  last_update_slot : Nat
deriving DecidableEq

def WorldEntry.LEN : Nat := 358

/-- Shape constraints that the Rust types enforce statically: every fixed
byte-array field has its declared width and every integer field fits its
machine width. -/
def WorldEntry.WF (e : WorldEntry) : Prop :=
  e.magic.length = 8 ∧ e.world_id.length = 16 ∧ e.authority.length = 32 ∧
  e.name.length = NAME_LEN ∧ e.endpoint.length = ENDPOINT_LEN ∧
  e.token_mint.length = 32 ∧ e.dbc_pool.length = 32 ∧
  e.metadata_uri.length = METADATA_URI_LEN ∧
  e.game_port < 65536 ∧ e.asset_port < 65536 ∧
  e.last_update_slot < 18446744073709551616

instance (e : WorldEntry) : Decidable e.WF := by
  unfold WorldEntry.WF; infer_instance

/-- `write_fixed_string` (owp-registry-types): fails when the source exceeds
the capacity, otherwise zeroes the destination and copies the bytes in.  The
old destination contents are irrelevant, so the model returns the new
destination. -/
def write_fixed_string (N : Nat) (src : Bytes) : Option Bytes :=
  if src.length > N then none
  else some (src ++ List.replicate (N - src.length) 0)

/-- Little-endian borsh encoding of a u16. -/
def u16ToLe (n : Nat) : Bytes := [n % 256, n / 256 % 256]

/-- Little-endian borsh encoding of a u64. -/
def u64ToLe (n : Nat) : Bytes :=
  [n % 256, n / 256 % 256, n / 256 ^ 2 % 256, n / 256 ^ 3 % 256,
   n / 256 ^ 4 % 256, n / 256 ^ 5 % 256, n / 256 ^ 6 % 256, n / 256 ^ 7 % 256]

/-- Borsh serialization of a `WorldEntry`: every field in declaration order,
byte arrays verbatim, integers little-endian. -/
def serializeWorldEntry (e : WorldEntry) : Bytes :=
  e.magic ++ [e.version] ++ [e.bump] ++ e.world_id ++ e.authority ++
  e.name ++ e.endpoint ++ u16ToLe e.game_port ++ u16ToLe e.asset_port ++
  e.token_mint ++ e.dbc_pool ++ e.metadata_uri ++ u64ToLe e.last_update_slot

/-- Borsh reader for a fixed byte array: take `n` bytes, fail on short input. -/
def readBytes (n : Nat) (b : Bytes) : Option (Bytes × Bytes) :=
  if n ≤ b.length then some (b.take n, b.drop n) else none

/-- Borsh reader for a u8. -/
def readU8 : Bytes → Option (Nat × Bytes)
  | x :: rest => some (x, rest)
  | [] => none

/-- Borsh reader for a little-endian u16. -/
def readU16 : Bytes → Option (Nat × Bytes)
  | b0 :: b1 :: rest => some (b0 + 256 * b1, rest)
  | _ => none

/-- Borsh reader for a little-endian u32 (string length prefixes). -/
def readU32 : Bytes → Option (Nat × Bytes)
  | b0 :: b1 :: b2 :: b3 :: rest =>
      some (b0 + 256 * (b1 + 256 * (b2 + 256 * b3)), rest)
  | _ => none

/-- Borsh reader for a little-endian u64. -/
def readU64 : Bytes → Option (Nat × Bytes)
  | b0 :: b1 :: b2 :: b3 :: b4 :: b5 :: b6 :: b7 :: rest =>
      some (b0 + 256 * (b1 + 256 * (b2 + 256 * (b3 + 256 * (b4 + 256 *
        (b5 + 256 * (b6 + 256 * b7)))))), rest)
  | _ => none

/-- Borsh `WorldEntry::try_from_slice`: parse each field in order, fail on
short input, and require that the whole input is consumed. -/
def deserializeWorldEntry (b : Bytes) : Option WorldEntry :=
  match readBytes 8 b with
  | none => none
  | some (magic, b) =>
  match readU8 b with
  | none => none
  | some (version, b) =>
  match readU8 b with
  | none => none
  | some (bump, b) =>
  match readBytes 16 b with
  | none => none
  | some (world_id, b) =>
  match readBytes 32 b with
  | none => none
  | some (authority, b) =>
  match readBytes NAME_LEN b with
  | none => none
  | some (name, b) =>
  match readBytes ENDPOINT_LEN b with
  | none => none
  | some (endpoint, b) =>
  match readU16 b with
  | none => none
  | some (game_port, b) =>
  match readU16 b with
  | none => none
  | some (asset_port, b) =>
  match readBytes 32 b with
  | none => none
  | some (token_mint, b) =>
  match readBytes 32 b with
  | none => none
  | some (dbc_pool, b) =>
  match readBytes METADATA_URI_LEN b with
  | none => none
  | some (metadata_uri, b) =>
  match readU64 b with
  | none => none
  | some (last_update_slot, b) =>
  if b.isEmpty then
    some ⟨magic, version, bump, world_id, authority, name, endpoint,
      game_port, asset_port, token_mint, dbc_pool, metadata_uri,
      last_update_slot⟩
  else none

/-- Continuation-byte test for UTF-8 validation. -/
def isCont (b : Nat) : Bool := 128 ≤ b && b ≤ 191

/-- UTF-8 validity of a byte list, as Rust's `String::from_utf8` checks it
(RFC 3629: no overlong forms, no surrogates, max U+10FFFF).  Borsh string
deserialization fails on invalid UTF-8. -/
def utf8Valid : Bytes → Bool
  | [] => true
  | b0 :: rest =>
    if b0 ≤ 127 then utf8Valid rest
    else match rest with
      | b1 :: rest1 =>
        if 194 ≤ b0 && b0 ≤ 223 then isCont b1 && utf8Valid rest1
        else match rest1 with
          | b2 :: rest2 =>
            if b0 = 224 then (160 ≤ b1 && b1 ≤ 191) && isCont b2 && utf8Valid rest2
            else if 225 ≤ b0 && b0 ≤ 236 then isCont b1 && isCont b2 && utf8Valid rest2
            else if b0 = 237 then (128 ≤ b1 && b1 ≤ 159) && isCont b2 && utf8Valid rest2
            else if 238 ≤ b0 && b0 ≤ 239 then isCont b1 && isCont b2 && utf8Valid rest2
            else match rest2 with
              | b3 :: rest3 =>
                if b0 = 240 then (144 ≤ b1 && b1 ≤ 191) && isCont b2 && isCont b3 && utf8Valid rest3
                else if 241 ≤ b0 && b0 ≤ 243 then isCont b1 && isCont b2 && isCont b3 && utf8Valid rest3
                else if b0 = 244 then (128 ≤ b1 && b1 ≤ 143) && isCont b2 && isCont b3 && utf8Valid rest3
                else false
              | [] => false
          | [] => false
      | [] => false

/-- Borsh reader for a `String`: u32 length prefix, that many bytes, which
must be valid UTF-8.  The string is modelled by its byte list. -/
def readString (b : Bytes) : Option (Bytes × Bytes) := do
  let (len, b) ← readU32 b
  let (s, b) ← readBytes len b
  if utf8Valid s then some (s, b) else none

/-- Borsh reader for `Option<T>`: tag byte 0 = None, 1 = Some, anything else
is a decode error. -/
def readOpt {α : Type} (p : Bytes → Option (α × Bytes)) :
    Bytes → Option (Option α × Bytes)
  | 0 :: rest => some (none, rest)
  | 1 :: rest => (p rest).map (fun vr => (some vr.1, vr.2))
  | _ => none

/-- The instruction set (enum `RegistryInstruction` in instruction.rs).
For the Update variant, `none` = no change, `some none` = clear,
`some (some v)` = set, exactly as the doubled `Option` in the source. -/
inductive RegistryInstruction where
  | RegisterWorld (world_id : Bytes) (name : Bytes) (endpoint : Bytes)
      (game_port : Nat) (asset_port : Option Nat)
      (token_mint : Option Bytes) (dbc_pool : Option Bytes)
      (metadata_uri : Bytes)
  | UpdateWorld (name : Option Bytes) (endpoint : Option Bytes)
      (game_port : Option Nat) (asset_port : Option (Option Nat))
      (token_mint : Option (Option Bytes)) (dbc_pool : Option (Option Bytes))
      (metadata_uri : Option Bytes)
  | DelistWorld
deriving DecidableEq

/-- Borsh enum decoding of `RegistryInstruction`: u8 variant tag followed by
the variant's fields in order. -/
def parseInstruction : Bytes → Option (RegistryInstruction × Bytes)
  | 0 :: rest => do
      let (world_id, b) ← readBytes 16 rest
      let (name, b) ← readString b
      let (endpoint, b) ← readString b
      let (game_port, b) ← readU16 b
      let (asset_port, b) ← readOpt readU16 b
      let (token_mint, b) ← readOpt (readBytes 32) b
      let (dbc_pool, b) ← readOpt (readBytes 32) b
      let (metadata_uri, b) ← readString b
      some (.RegisterWorld world_id name endpoint game_port asset_port
        token_mint dbc_pool metadata_uri, b)
  | 1 :: rest => do
      let (name, b) ← readOpt readString rest
      let (endpoint, b) ← readOpt readString b
      let (game_port, b) ← readOpt readU16 b
      let (asset_port, b) ← readOpt (readOpt readU16) b
      let (token_mint, b) ← readOpt (readOpt (readBytes 32)) b
      let (dbc_pool, b) ← readOpt (readOpt (readBytes 32)) b
      let (metadata_uri, b) ← readOpt readString b
      some (.UpdateWorld name endpoint game_port asset_port token_mint
        dbc_pool metadata_uri, b)
  | 2 :: rest => some (.DelistWorld, rest)
  | _ => none

/-- Typed failures returned to the host (the subset of Solana's
`ProgramError` this program can produce, plus host-primitive failures). -/
inductive ProgramError where
  | Custom (code : Nat)
  | MissingRequiredSignature
  | IncorrectProgramId
  | InvalidInstructionData
  | NotEnoughAccountKeys
  | ArithmeticOverflow
  | InsufficientFunds
deriving DecidableEq

/-- The program's own error enum (error.rs), with its discriminant values. -/
inductive RegistryError where
  | InvalidInstruction
  | InvalidPda
  | Unauthorized
  | StringTooLong
  | AlreadyInitialized
  | InvalidAccountData
deriving DecidableEq

def RegistryError.code : RegistryError → Nat
  | .InvalidInstruction => 1
  | .InvalidPda => 2
  | .Unauthorized => 3
  | .StringTooLong => 4
  | .AlreadyInitialized => 5
  | .InvalidAccountData => 6

/-- The `From<RegistryError> for ProgramError` impl. -/
def RegistryError.toProgramError (e : RegistryError) : ProgramError :=
  .Custom e.code

/-- `decode` (instruction.rs): borsh `try_from_slice`, every failure mapped
to `InvalidInstructionData`.  `try_from_slice` also fails when bytes remain
after the instruction. -/
def decode (input : Bytes) : Except ProgramError RegistryInstruction :=
  match parseInstruction input with
  | some (ix, []) => .ok ix
  | _ => .error .InvalidInstructionData

/-- One referenced account as the handler sees it: key, signer flag,
lamport balance, owning program, and data bytes. -/
structure AccountInfo where
  key : Bytes
  is_signer : Bool
  lamports : Nat
  owner : Bytes
  data : Bytes
deriving DecidableEq

instance : Inhabited AccountInfo := ⟨⟨[], false, 0, [], []⟩⟩

/-- The system program's id (all-zero public key). -/
def systemProgramId : Bytes := List.replicate 32 0

/-- Host-supplied primitives (spec section 6): deterministic
program-derived-address search, the slot clock, and rent-exemption sizing.
These are capabilities of the hosting runtime, injected as an interface. -/
structure HostEnv where
  findProgramAddress : List Bytes → Bytes → Bytes × Nat
  clockSlot : Nat
  rentMinimumBalance : Nat → Nat

/-- Modelled from the spec: the host system program's create-account
primitive (spec section 6, "account allocation sized to the record length
with minimum-balance funding") — debits the payer, then funds the target
with `lamports`, allocates `space` zeroed bytes, and assigns ownership to
`owner`.  Fails when the payer lacks funds. -/
def createAccount (owner : Bytes) (payer target : AccountInfo)
    (lamports space : Nat) : Except ProgramError (AccountInfo × AccountInfo) :=
  if payer.lamports < lamports then .error .InsufficientFunds
  else .ok ({payer with lamports := payer.lamports - lamports},
            {target with
              lamports := lamports,
              owner := owner,
              data := List.replicate space 0})

/-- Borsh `serialize(&mut &mut data[..])`: writes the encoding over the
prefix of the buffer, failing when the buffer is too small; bytes past the
encoding keep their old values. -/
def writeSerialized (enc dst : Bytes) : Option Bytes :=
  if enc.length ≤ dst.length then some (enc ++ dst.drop enc.length) else none

/-- The account state after an invocation: the host commits the new account
list on success and rolls everything back (keeps the old list) on error. -/
def applyResult (accounts : List AccountInfo)
    (r : Except ProgramError (List AccountInfo)) : List AccountInfo :=
  match r with
  | .ok accs => accs
  | .error _ => accounts

/-- The fresh record written by Register: authority = signer key, bump from
the PDA derivation, strings zero-padded into their fixed arrays, omitted
optional fields defaulted to their absent sentinel, and last_update_slot
taken from the clock. -/
def registeredEntry (env : HostEnv) (program_id world_id authorityKey : Bytes)
    (game_port : Nat) (asset_port : Option Nat)
    (token_mint dbc_pool : Option Bytes) (nameB epB muB : Bytes) : WorldEntry :=
  { magic := WORLD_ENTRY_MAGIC,
    version := WORLD_ENTRY_VERSION,
    bump := (env.findProgramAddress [SEED_WORLD, world_id] program_id).2,
    world_id := world_id,
    authority := authorityKey,
    name := nameB,
    endpoint := epB,
    game_port := game_port,
    asset_port := asset_port.getD 0,
    token_mint := token_mint.getD (List.replicate 32 0),
    dbc_pool := dbc_pool.getD (List.replicate 32 0),
    metadata_uri := muB,
    last_update_slot := env.clockSlot }

/-- `Processor::register_world` (processor.rs lines 74-166), check for check:
string caps first (before touching any account), then the four accounts,
payer+authority signatures, system-program id, PDA re-derivation, the
zero-balance (uninitialized) requirement, then create-account, then the
fresh record is built and serialized into the new storage. -/
def registerWorld (env : HostEnv) (program_id : Bytes)
    (accounts : List AccountInfo) (world_id name endpoint : Bytes)
    (game_port : Nat) (asset_port : Option Nat)
    (token_mint dbc_pool : Option Bytes) (metadata_uri : Bytes) :
    Except ProgramError (List AccountInfo) :=
  if name.length > NAME_MAX_LEN ∨ endpoint.length > ENDPOINT_MAX_LEN ∨
      metadata_uri.length > METADATA_URI_MAX_LEN then
    .error RegistryError.StringTooLong.toProgramError
  else
    match accounts with
    | payer :: world_entry_account :: authority :: system_program :: _ =>
      if ¬(payer.is_signer = true ∧ authority.is_signer = true) then
        .error .MissingRequiredSignature
      else if system_program.key ≠ systemProgramId then
        .error .IncorrectProgramId
      else if (env.findProgramAddress [SEED_WORLD, world_id] program_id).1 ≠
          world_entry_account.key then
        .error RegistryError.InvalidPda.toProgramError
      else if world_entry_account.lamports > 0 then
        .error RegistryError.AlreadyInitialized.toProgramError
      else
        match createAccount program_id payer world_entry_account
            (env.rentMinimumBalance WorldEntry.LEN) WorldEntry.LEN with
        | .error e => .error e
        | .ok (payer2, world2) =>
          match write_fixed_string NAME_LEN name with
          | none => .error RegistryError.StringTooLong.toProgramError
          | some nameBytes =>
            match write_fixed_string ENDPOINT_LEN endpoint with
            | none => .error RegistryError.StringTooLong.toProgramError
            | some endpointBytes =>
              match write_fixed_string METADATA_URI_LEN metadata_uri with
              | none => .error RegistryError.StringTooLong.toProgramError
              | some metadataBytes =>
                match writeSerialized (serializeWorldEntry (registeredEntry
                    env program_id world_id authority.key game_port asset_port
                    token_mint dbc_pool nameBytes endpointBytes
                    metadataBytes)) world2.data with
                | none => .error RegistryError.InvalidAccountData.toProgramError
                | some d =>
                  .ok ((accounts.set 0 payer2).set 1 { world2 with data := d })
    | _ => .error .NotEnoughAccountKeys

/-- The record produced by a successful Update before it is written back:
the three-state patch of every field, plus the slot refresh. -/
def patchedEntry (env : HostEnv) (entry : WorldEntry)
    (name2 endpoint2 metadata2 : Bytes) (game_port : Option Nat)
    (asset_port : Option (Option Nat))
    (token_mint dbc_pool : Option (Option Bytes)) : WorldEntry :=
  { entry with
    name := name2,
    endpoint := endpoint2,
    metadata_uri := metadata2,
    game_port := game_port.getD entry.game_port,
    asset_port :=
      match asset_port with
      | some v => v.getD 0
      | none => entry.asset_port,
    token_mint :=
      match token_mint with
      | some v => v.getD (List.replicate 32 0)
      | none => entry.token_mint,
    dbc_pool :=
      match dbc_pool with
      | some v => v.getD (List.replicate 32 0)
      | none => entry.dbc_pool,
    last_update_slot := env.clockSlot }

/-- One three-state string patch of `update_world`: absent = keep the stored
bytes, present = cap check then `write_fixed_string` (both failure modes map
to StringTooLong in the source). -/
def patchString (cap N : Nat) (cur : Bytes) (v : Option Bytes) : Option Bytes :=
  match v with
  | none => some cur
  | some s => if s.length > cap then none else write_fixed_string N s

/-- `Processor::update_world` (processor.rs lines 168-252): authority
signature, registry ownership, record decode, magic/version, PDA
re-derivation, stored-authority equality, then the per-field three-state
patches (name, endpoint, metadata_uri with cap checks, then the scalar and
key fields), the slot refresh, and the final serialize-back. -/
def updateWorld (env : HostEnv) (program_id : Bytes)
    (accounts : List AccountInfo) (name endpoint : Option Bytes)
    (game_port : Option Nat) (asset_port : Option (Option Nat))
    (token_mint dbc_pool : Option (Option Bytes))
    (metadata_uri : Option Bytes) :
    Except ProgramError (List AccountInfo) :=
  match accounts with
  | world_entry_account :: authority :: _ =>
    if authority.is_signer ≠ true then .error .MissingRequiredSignature
    else if world_entry_account.owner ≠ program_id then
      .error .IncorrectProgramId
    else
      match deserializeWorldEntry world_entry_account.data with
      | none => .error RegistryError.InvalidAccountData.toProgramError
      | some entry =>
        if entry.magic ≠ WORLD_ENTRY_MAGIC ∨
            entry.version ≠ WORLD_ENTRY_VERSION then
          .error RegistryError.InvalidAccountData.toProgramError
        else if (env.findProgramAddress [SEED_WORLD, entry.world_id]
            program_id).1 ≠ world_entry_account.key then
          .error RegistryError.InvalidPda.toProgramError
        else if entry.authority ≠ authority.key then
          .error RegistryError.Unauthorized.toProgramError
        else
          match patchString NAME_MAX_LEN NAME_LEN entry.name name with
          | none => .error RegistryError.StringTooLong.toProgramError
          | some name2 =>
            match patchString ENDPOINT_MAX_LEN ENDPOINT_LEN entry.endpoint
                endpoint with
            | none => .error RegistryError.StringTooLong.toProgramError
            | some endpoint2 =>
              match patchString METADATA_URI_MAX_LEN METADATA_URI_LEN
                  entry.metadata_uri metadata_uri with
              | none => .error RegistryError.StringTooLong.toProgramError
              | some metadata2 =>
                match writeSerialized (serializeWorldEntry (patchedEntry env
                    entry name2 endpoint2 metadata2 game_port asset_port
                    token_mint dbc_pool)) world_entry_account.data with
                | none => .error RegistryError.InvalidAccountData.toProgramError
                | some d =>
                  .ok (accounts.set 0 { world_entry_account with data := d })
  | _ => .error .NotEnoughAccountKeys

/-- `Processor::delist_world` (processor.rs lines 254-296): authority
signature, registry ownership, record decode, magic/version,
stored-authority equality, PDA re-derivation, then the atomic effect:
checked lamport transfer to the authority, storage balance zeroed, every
data byte zeroed. -/
def delistWorld (env : HostEnv) (program_id : Bytes)
    (accounts : List AccountInfo) : Except ProgramError (List AccountInfo) :=
  match accounts with
  | world_entry_account :: authority :: _ =>
    if authority.is_signer ≠ true then .error .MissingRequiredSignature
    else if world_entry_account.owner ≠ program_id then
      .error .IncorrectProgramId
    else
      match deserializeWorldEntry world_entry_account.data with
      | none => .error RegistryError.InvalidAccountData.toProgramError
      | some entry =>
        if entry.magic ≠ WORLD_ENTRY_MAGIC ∨
            entry.version ≠ WORLD_ENTRY_VERSION then
          .error RegistryError.InvalidAccountData.toProgramError
        else if entry.authority ≠ authority.key then
          .error RegistryError.Unauthorized.toProgramError
        else if (env.findProgramAddress [SEED_WORLD, entry.world_id]
            program_id).1 ≠ world_entry_account.key then
          .error RegistryError.InvalidPda.toProgramError
        else if authority.lamports + world_entry_account.lamports ≥
            18446744073709551616 then
          .error .ArithmeticOverflow
        else
          .ok ((accounts.set 0 { world_entry_account with
                  lamports := 0,
                  data := world_entry_account.data.map (fun _ => 0) }).set 1
               { authority with
                  lamports := authority.lamports + world_entry_account.lamports })
  | _ => .error .NotEnoughAccountKeys

/-- `Processor::process`: decode the instruction bytes, then dispatch. -/
def process (env : HostEnv) (program_id : Bytes)
    (accounts : List AccountInfo) (instruction_data : Bytes) :
    Except ProgramError (List AccountInfo) :=
  match decode instruction_data with
  | .error e => .error e
  | .ok (.RegisterWorld world_id name endpoint game_port asset_port
      token_mint dbc_pool metadata_uri) =>
      registerWorld env program_id accounts world_id name endpoint game_port
        asset_port token_mint dbc_pool metadata_uri
  | .ok (.UpdateWorld name endpoint game_port asset_port token_mint dbc_pool
      metadata_uri) =>
      updateWorld env program_id accounts name endpoint game_port asset_port
        token_mint dbc_pool metadata_uri
  | .ok .DelistWorld => delistWorld env program_id accounts


theorem readBytes_exact {n : Nat} (l r : Bytes) (h : l.length = n) :
    readBytes n (l ++ r) = some (l, r) := by
  subst h
  simp [readBytes, List.take_left, List.drop_left]

theorem readU16_u16ToLe {n : Nat} (r : Bytes) (h : n < 65536) :
    readU16 (u16ToLe n ++ r) = some (n, r) := by
  simp only [u16ToLe, List.cons_append, List.nil_append, readU16,
    Option.some.injEq, Prod.mk.injEq]
  exact ⟨by omega, trivial⟩

theorem readU64_u64ToLe {n : Nat} (r : Bytes)
    (h : n < 18446744073709551616) :
    readU64 (u64ToLe n ++ r) = some (n, r) := by
  simp only [u64ToLe, List.cons_append, List.nil_append, readU64,
    Option.some.injEq, Prod.mk.injEq]
  exact ⟨by omega, trivial⟩

theorem serializeWorldEntry_length (e : WorldEntry) (h : e.WF) :
    (serializeWorldEntry e).length = WorldEntry.LEN := by
  obtain ⟨h1, h2, h3, h4, h5, h6, h7, h8, h9, h10, h11⟩ := h
  simp [serializeWorldEntry, u16ToLe, u64ToLe, WorldEntry.LEN,
    h1, h2, h3, h4, h5, h6, h7, h8, NAME_LEN, ENDPOINT_LEN, METADATA_URI_LEN]

theorem deserialize_serialize (e : WorldEntry) (h : e.WF) :
    deserializeWorldEntry (serializeWorldEntry e) = some e := by
  obtain ⟨h1, h2, h3, h4, h5, h6, h7, h8, h9, h10, h11⟩ := h
  rw [NAME_LEN] at h4
  rw [ENDPOINT_LEN] at h5
  rw [METADATA_URI_LEN] at h8
  rw [serializeWorldEntry, deserializeWorldEntry]
  simp only [NAME_LEN, ENDPOINT_LEN, METADATA_URI_LEN, List.append_assoc,
    List.singleton_append, List.cons_append]
  rw [readBytes_exact _ _ h1]
  simp only [readU8, List.nil_append]
  rw [readBytes_exact _ _ h2]
  simp only []
  rw [readBytes_exact _ _ h3]
  simp only []
  rw [readBytes_exact _ _ h4]
  simp only []
  rw [readBytes_exact _ _ h5]
  simp only []
  rw [readU16_u16ToLe _ h9]
  simp only []
  rw [readU16_u16ToLe _ h10]
  simp only []
  rw [readBytes_exact _ _ h6]
  simp only []
  rw [readBytes_exact _ _ h7]
  simp only []
  rw [readBytes_exact _ _ h8]
  simp only []
  rw [show u64ToLe e.last_update_slot =
        u64ToLe e.last_update_slot ++ [] from (List.append_nil _).symm,
    readU64_u64ToLe _ h11]
  simp only [List.isEmpty_nil, if_true]

theorem readBytes_inv {n : Nat} {b x r : Bytes} (h : readBytes n b = some (x, r)) :
    b = x ++ r ∧ x.length = n := by
  unfold readBytes at h
  split at h
  · simp only [Option.some.injEq, Prod.mk.injEq] at h
    obtain ⟨hx, hr⟩ := h
    subst hx hr
    constructor
    · exact (List.take_append_drop n b).symm
    · simpa using by omega
  · simp at h

theorem readU8_inv {b r : Bytes} {v : Nat} (h : readU8 b = some (v, r)) :
    b = v :: r := by
  unfold readU8 at h
  split at h
  · simp only [Option.some.injEq, Prod.mk.injEq] at h
    obtain ⟨hv, hr⟩ := h
    subst hv hr
    rfl
  · simp at h

theorem readU16_inv {b r : Bytes} {v : Nat} (h : readU16 b = some (v, r)) :
    ∃ b0 b1, b = b0 :: b1 :: r ∧ v = b0 + 256 * b1 := by
  unfold readU16 at h
  split at h
  · simp only [Option.some.injEq, Prod.mk.injEq] at h
    obtain ⟨hv, hr⟩ := h
    subst hv hr
    exact ⟨_, _, rfl, rfl⟩
  · simp at h

theorem readU64_inv {b r : Bytes} {v : Nat} (h : readU64 b = some (v, r)) :
    ∃ b0 b1 b2 b3 b4 b5 b6 b7,
      b = b0 :: b1 :: b2 :: b3 :: b4 :: b5 :: b6 :: b7 :: r ∧
      v = b0 + 256 * (b1 + 256 * (b2 + 256 * (b3 + 256 * (b4 + 256 *
        (b5 + 256 * (b6 + 256 * b7)))))) := by
  unfold readU64 at h
  split at h
  · simp only [Option.some.injEq, Prod.mk.injEq] at h
    obtain ⟨hv, hr⟩ := h
    subst hv hr
    exact ⟨_, _, _, _, _, _, _, _, rfl, rfl⟩
  · simp at h

theorem deserializeWorldEntry_inv {b : Bytes} {e : WorldEntry}
    (h : deserializeWorldEntry b = some e) :
    b.length = 358 ∧
    e.magic.length = 8 ∧ e.world_id.length = 16 ∧ e.authority.length = 32 ∧
    e.name.length = NAME_LEN ∧ e.endpoint.length = ENDPOINT_LEN ∧
    e.token_mint.length = 32 ∧ e.dbc_pool.length = 32 ∧
    e.metadata_uri.length = METADATA_URI_LEN ∧
    ((∀ x ∈ b, x < 256) → e.WF) := by
  unfold deserializeWorldEntry at h
  split at h
  · simp at h
  rename_i magic c1 hr1
  split at h
  · simp at h
  rename_i version c2 hr2
  split at h
  · simp at h
  rename_i bump c3 hr3
  split at h
  · simp at h
  rename_i world_id c4 hr4
  split at h
  · simp at h
  rename_i authority c5 hr5
  split at h
  · simp at h
  rename_i name c6 hr6
  split at h
  · simp at h
  rename_i endpoint c7 hr7
  split at h
  · simp at h
  rename_i game_port c8 hr8
  split at h
  · simp at h
  rename_i asset_port c9 hr9
  split at h
  · simp at h
  rename_i token_mint c10 hr10
  split at h
  · simp at h
  rename_i dbc_pool c11 hr11
  split at h
  · simp at h
  rename_i metadata_uri c12 hr12
  split at h
  · simp at h
  rename_i last_update_slot c13 hr13
  split at h
  case isFalse => simp at h
  rename_i hEmpty
  simp only [Option.some.injEq] at h
  subst h
  obtain ⟨hb1, hl1⟩ := readBytes_inv hr1
  have hc1 := readU8_inv hr2
  have hc2 := readU8_inv hr3
  obtain ⟨hb4, hl4⟩ := readBytes_inv hr4
  obtain ⟨hb5, hl5⟩ := readBytes_inv hr5
  obtain ⟨hb6, hl6⟩ := readBytes_inv hr6
  obtain ⟨hb7, hl7⟩ := readBytes_inv hr7
  obtain ⟨g0, g1, hc8, hgp⟩ := readU16_inv hr8
  obtain ⟨a0, a1, hc9, hap⟩ := readU16_inv hr9
  obtain ⟨hb10, hl10⟩ := readBytes_inv hr10
  obtain ⟨hb11, hl11⟩ := readBytes_inv hr11
  obtain ⟨hb12, hl12⟩ := readBytes_inv hr12
  obtain ⟨s0, s1, s2, s3, s4, s5, s6, s7, hc13, hslot⟩ := readU64_inv hr13
  have hc13nil : c13 = [] := by
    simpa using hEmpty
  subst hb1 hc1 hc2 hb4 hb5 hb6 hb7 hc8 hc9 hb10 hb11 hb12 hc13 hc13nil
  refine ⟨?_, hl1, hl4, hl5, hl6, hl7, hl10, hl11, hl12, ?_⟩
  · simp only [NAME_LEN, ENDPOINT_LEN, METADATA_URI_LEN] at hl6 hl7 hl12
    simp only [List.length_append, List.length_cons, List.length_nil]
    omega
  · intro hb
    have m0 : g0 < 256 := hb g0 (by simp)
    have m1 : g1 < 256 := hb g1 (by simp)
    have m2 : a0 < 256 := hb a0 (by simp)
    have m3 : a1 < 256 := hb a1 (by simp)
    have n0 : s0 < 256 := hb s0 (by simp)
    have n1 : s1 < 256 := hb s1 (by simp)
    have n2 : s2 < 256 := hb s2 (by simp)
    have n3 : s3 < 256 := hb s3 (by simp)
    have n4 : s4 < 256 := hb s4 (by simp)
    have n5 : s5 < 256 := hb s5 (by simp)
    have n6 : s6 < 256 := hb s6 (by simp)
    have n7 : s7 < 256 := hb s7 (by simp)
    exact ⟨hl1, hl4, hl5, hl6, hl7, hl10, hl11, hl12,
      by simp only []; omega, by simp only []; omega, by simp only []; omega⟩

theorem write_fixed_string_of_le {N : Nat} {s : Bytes} (h : s.length ≤ N) :
    write_fixed_string N s = some (s ++ List.replicate (N - s.length) 0) := by
  simp [write_fixed_string, Nat.not_lt.mpr h]

theorem write_fixed_string_length {N : Nat} {s d : Bytes}
    (h : write_fixed_string N s = some d) : d.length = N := by
  unfold write_fixed_string at h
  split at h
  · simp at h
  · rename_i hle
    simp only [Option.some.injEq] at h
    subst h
    simp only [List.length_append, List.length_replicate]
    omega

theorem patchString_length {cap N : Nat} {cur d : Bytes} {v : Option Bytes}
    (hcur : cur.length = N) (h : patchString cap N cur v = some d) :
    d.length = N := by
  unfold patchString at h
  split at h
  · simp only [Option.some.injEq] at h
    subst h
    exact hcur
  · split at h
    · simp at h
    · exact write_fixed_string_length h

theorem patchString_of_le {cap N : Nat} {cur s : Bytes}
    (hcap : s.length ≤ cap) (hN : s.length ≤ N) :
    patchString cap N cur (some s) =
      some (s ++ List.replicate (N - s.length) 0) := by
  simp [patchString, Nat.not_lt.mpr hcap, write_fixed_string_of_le hN]

theorem writeSerialized_exact {enc dst : Bytes} (h : enc.length = dst.length) :
    writeSerialized enc dst = some enc := by
  simp [writeSerialized, h, List.drop_length]

theorem delistWorld_ok {env : HostEnv} {pid : Bytes}
    {accounts accs2 : List AccountInfo}
    (h : delistWorld env pid accounts = .ok accs2) :
    ∃ world authority rest entry, accounts = world :: authority :: rest ∧
      deserializeWorldEntry world.data = some entry ∧
      authority.lamports + world.lamports < 18446744073709551616 ∧
      accs2 = { world with
                  lamports := 0,
                  data := world.data.map (fun _ => 0) } ::
              { authority with
                  lamports := authority.lamports + world.lamports } :: rest := by
  unfold delistWorld at h
  split at h
  case h_2 => simp at h
  rename_i world authority rest
  split at h
  · simp at h
  split at h
  · simp at h
  split at h
  · simp at h
  rename_i entry hdec
  split at h
  · simp at h
  split at h
  · simp at h
  split at h
  · simp at h
  split at h
  · simp at h
  rename_i hover
  simp only [List.set] at h
  simp only [Except.ok.injEq] at h
  subst h
  exact ⟨world, authority, rest, entry, rfl, hdec, by omega, rfl⟩

theorem updateWorld_ok {env : HostEnv} {pid : Bytes}
    {accounts accs2 : List AccountInfo} {name endpoint : Option Bytes}
    {game_port : Option Nat} {asset_port : Option (Option Nat)}
    {token_mint dbc_pool : Option (Option Bytes)} {metadata_uri : Option Bytes}
    (h : updateWorld env pid accounts name endpoint game_port asset_port
      token_mint dbc_pool metadata_uri = .ok accs2) :
    ∃ world authority rest entry name2 endpoint2 metadata2 d,
      accounts = world :: authority :: rest ∧
      deserializeWorldEntry world.data = some entry ∧
      patchString NAME_MAX_LEN NAME_LEN entry.name name = some name2 ∧
      patchString ENDPOINT_MAX_LEN ENDPOINT_LEN entry.endpoint endpoint =
        some endpoint2 ∧
      patchString METADATA_URI_MAX_LEN METADATA_URI_LEN entry.metadata_uri
        metadata_uri = some metadata2 ∧
      writeSerialized (serializeWorldEntry (patchedEntry env entry name2
        endpoint2 metadata2 game_port asset_port token_mint dbc_pool))
        world.data = some d ∧
      accs2 = { world with data := d } :: authority :: rest := by
  unfold updateWorld at h
  split at h
  case h_2 => simp at h
  rename_i world authority rest
  split at h
  · simp at h
  split at h
  · simp at h
  split at h
  · simp at h
  rename_i entry hdec
  split at h
  · simp at h
  split at h
  · simp at h
  split at h
  · simp at h
  split at h
  · simp at h
  rename_i name2 hname
  split at h
  · simp at h
  rename_i endpoint2 hendpoint
  split at h
  · simp at h
  rename_i metadata2 hmeta
  split at h
  · simp at h
  rename_i d hwrite
  simp only [List.set] at h
  simp only [Except.ok.injEq] at h
  subst h
  exact ⟨world, authority, rest, entry, name2, endpoint2, metadata2, d,
    rfl, hdec, hname, hendpoint, hmeta, hwrite, rfl⟩

theorem createAccount_inv {owner : Bytes} {payer target payer2 target2 : AccountInfo}
    {lamports space : Nat}
    (h : createAccount owner payer target lamports space = .ok (payer2, target2)) :
    lamports ≤ payer.lamports ∧
    payer2 = { payer with lamports := payer.lamports - lamports } ∧
    target2 = { target with
                  lamports := lamports,
                  owner := owner,
                  data := List.replicate space 0 } := by
  unfold createAccount at h
  split at h
  · simp at h
  · rename_i hge
    simp only [Except.ok.injEq, Prod.mk.injEq] at h
    exact ⟨by omega, h.1.symm, h.2.symm⟩

theorem registerWorld_ok {env : HostEnv} {pid : Bytes}
    {accounts accs2 : List AccountInfo} {world_id name endpoint : Bytes}
    {game_port : Nat} {asset_port : Option Nat}
    {token_mint dbc_pool : Option Bytes} {metadata_uri : Bytes}
    (h : registerWorld env pid accounts world_id name endpoint game_port
      asset_port token_mint dbc_pool metadata_uri = .ok accs2) :
    ∃ payer world authority sys rest nameB epB muB d,
      accounts = payer :: world :: authority :: sys :: rest ∧
      world.lamports = 0 ∧
      (env.findProgramAddress [SEED_WORLD, world_id] pid).1 = world.key ∧
      write_fixed_string NAME_LEN name = some nameB ∧
      write_fixed_string ENDPOINT_LEN endpoint = some epB ∧
      write_fixed_string METADATA_URI_LEN metadata_uri = some muB ∧
      writeSerialized (serializeWorldEntry (registeredEntry env pid world_id
        authority.key game_port asset_port token_mint dbc_pool nameB epB muB))
        (List.replicate WorldEntry.LEN 0) = some d ∧
      accs2 = { payer with
                  lamports := payer.lamports -
                    env.rentMinimumBalance WorldEntry.LEN } ::
              { world with
                  lamports := env.rentMinimumBalance WorldEntry.LEN,
                  owner := pid,
                  data := d } :: authority :: sys :: rest := by
  unfold registerWorld at h
  split at h
  · simp at h
  split at h
  case h_2 => simp at h
  rename_i payer world authority sys rest
  split at h
  · simp at h
  split at h
  · simp at h
  split at h
  · simp at h
  split at h
  · simp at h
  rename_i hpda hlam
  split at h
  · simp at h
  rename_i payer2 world2 hcreate
  split at h
  · simp at h
  rename_i nameB hname
  split at h
  · simp at h
  rename_i epB hep
  split at h
  · simp at h
  rename_i muB hmu
  split at h
  · simp at h
  rename_i d hwrite
  obtain ⟨hfund, hpayer2, hworld2⟩ := createAccount_inv hcreate
  subst hpayer2 hworld2
  simp only [List.set] at h
  simp only [Except.ok.injEq] at h
  subst h
  refine ⟨payer, world, authority, sys, rest, nameB, epB, muB, d,
    rfl, by omega, by simpa using hpda, hname, hep, hmu, by simpa using hwrite,
    rfl⟩

/-- C2: for every WorldEntry record r (well-formed in the sense the Rust
types enforce statically), encoding r produces exactly 358 bytes — the
declared `WorldEntry::LEN`, which equals the sum of the declared field
widths — and decoding that buffer yields r back. -/
theorem C2_record_codec_roundtrip (r : WorldEntry) (h : r.WF) :
    (serializeWorldEntry r).length = WorldEntry.LEN ∧
    WorldEntry.LEN =
      8 + 1 + 1 + 16 + 32 + NAME_LEN + ENDPOINT_LEN + 2 + 2 + 32 + 32 +
        METADATA_URI_LEN + 8 ∧
    deserializeWorldEntry (serializeWorldEntry r) = some r :=
  ⟨serializeWorldEntry_length r h, by decide, deserialize_serialize r h⟩

/-- C1: on a well-formed stored record (magic and version correct, account
owned by the registry, derived address matching, authority signed), Update
and Delist both fail with Unauthorized (custom error 3) whenever the signer
key differs from the stored 32-byte authority, and the stored bytes are
unchanged. -/
theorem C1_unauthorized_signer_rejected (env : HostEnv) (pid : Bytes)
    (world authority : AccountInfo) (rest : List AccountInfo)
    (entry : WorldEntry)
    (hdec : deserializeWorldEntry world.data = some entry)
    (hmagic : entry.magic = WORLD_ENTRY_MAGIC)
    (hver : entry.version = WORLD_ENTRY_VERSION)
    (howner : world.owner = pid)
    (hpda : (env.findProgramAddress [SEED_WORLD, entry.world_id] pid).1 =
      world.key)
    (hsig : authority.is_signer = true)
    (hneq : entry.authority ≠ authority.key)
    (name endpoint : Option Bytes) (game_port : Option Nat)
    (asset_port : Option (Option Nat))
    (token_mint dbc_pool : Option (Option Bytes))
    (metadata_uri : Option Bytes) :
    updateWorld env pid (world :: authority :: rest) name endpoint game_port
      asset_port token_mint dbc_pool metadata_uri =
      .error (ProgramError.Custom 3) ∧
    applyResult (world :: authority :: rest)
      (updateWorld env pid (world :: authority :: rest) name endpoint
        game_port asset_port token_mint dbc_pool metadata_uri) =
      world :: authority :: rest ∧
    delistWorld env pid (world :: authority :: rest) =
      .error (ProgramError.Custom 3) ∧
    applyResult (world :: authority :: rest)
      (delistWorld env pid (world :: authority :: rest)) =
      world :: authority :: rest := by
  have hu : updateWorld env pid (world :: authority :: rest) name endpoint
      game_port asset_port token_mint dbc_pool metadata_uri =
      .error (ProgramError.Custom 3) := by
    unfold updateWorld
    simp [hsig, howner, hdec, hmagic, hver, hpda, hneq,
      RegistryError.toProgramError, RegistryError.code]
  have hd : delistWorld env pid (world :: authority :: rest) =
      .error (ProgramError.Custom 3) := by
    unfold delistWorld
    simp [hsig, howner, hdec, hmagic, hver, hneq,
      RegistryError.toProgramError, RegistryError.code]
  exact ⟨hu, by simp [applyResult, hu], hd, by simp [applyResult, hd]⟩

/-- C9: on Update and Delist, when the stored bytes fail to decode, or
decode with a wrong magic or version, the operation fails with
InvalidAccountData (custom error 6) regardless of every later check (PDA,
authority) and without mutation. -/
theorem C9_invalid_account_data_first (env : HostEnv) (pid : Bytes)
    (world authority : AccountInfo) (rest : List AccountInfo)
    (hsig : authority.is_signer = true)
    (howner : world.owner = pid)
    (hbad : deserializeWorldEntry world.data = none ∨
      ∃ e, deserializeWorldEntry world.data = some e ∧
        (e.magic ≠ WORLD_ENTRY_MAGIC ∨ e.version ≠ WORLD_ENTRY_VERSION))
    (name endpoint : Option Bytes) (game_port : Option Nat)
    (asset_port : Option (Option Nat))
    (token_mint dbc_pool : Option (Option Bytes))
    (metadata_uri : Option Bytes) :
    updateWorld env pid (world :: authority :: rest) name endpoint game_port
      asset_port token_mint dbc_pool metadata_uri =
      .error (ProgramError.Custom 6) ∧
    applyResult (world :: authority :: rest)
      (updateWorld env pid (world :: authority :: rest) name endpoint
        game_port asset_port token_mint dbc_pool metadata_uri) =
      world :: authority :: rest ∧
    delistWorld env pid (world :: authority :: rest) =
      .error (ProgramError.Custom 6) ∧
    applyResult (world :: authority :: rest)
      (delistWorld env pid (world :: authority :: rest)) =
      world :: authority :: rest := by
  have hu : updateWorld env pid (world :: authority :: rest) name endpoint
      game_port asset_port token_mint dbc_pool metadata_uri =
      .error (ProgramError.Custom 6) := by
    unfold updateWorld
    rcases hbad with hnone | ⟨e, hsome, hmv⟩
    · simp [hsig, howner, hnone, RegistryError.toProgramError,
        RegistryError.code]
    · simp [hsig, howner, hsome, hmv, RegistryError.toProgramError,
        RegistryError.code]
  have hd : delistWorld env pid (world :: authority :: rest) =
      .error (ProgramError.Custom 6) := by
    unfold delistWorld
    rcases hbad with hnone | ⟨e, hsome, hmv⟩
    · simp [hsig, howner, hnone, RegistryError.toProgramError,
        RegistryError.code]
    · simp [hsig, howner, hsome, hmv, RegistryError.toProgramError,
        RegistryError.code]
  exact ⟨hu, by simp [applyResult, hu], hd, by simp [applyResult, hd]⟩

theorem registerWorld_string_too_long (env : HostEnv) (pid : Bytes)
    (accounts : List AccountInfo) (world_id name endpoint : Bytes)
    (game_port : Nat) (asset_port : Option Nat)
    (token_mint dbc_pool : Option Bytes) (metadata_uri : Bytes)
    (hlong : NAME_MAX_LEN < name.length ∨
      ENDPOINT_MAX_LEN < endpoint.length ∨
      METADATA_URI_MAX_LEN < metadata_uri.length) :
    registerWorld env pid accounts world_id name endpoint game_port
      asset_port token_mint dbc_pool metadata_uri =
      .error (ProgramError.Custom 4) := by
  unfold registerWorld
  rw [if_pos hlong]
  simp [RegistryError.toProgramError, RegistryError.code]

theorem updateWorld_string_too_long (env : HostEnv) (pid : Bytes)
    (world authority : AccountInfo) (rest : List AccountInfo)
    (entry : WorldEntry) (name endpoint : Option Bytes)
    (game_port : Option Nat) (asset_port : Option (Option Nat))
    (token_mint dbc_pool : Option (Option Bytes))
    (metadata_uri : Option Bytes)
    (hdec : deserializeWorldEntry world.data = some entry)
    (hmagic : entry.magic = WORLD_ENTRY_MAGIC)
    (hver : entry.version = WORLD_ENTRY_VERSION)
    (howner : world.owner = pid)
    (hpda : (env.findProgramAddress [SEED_WORLD, entry.world_id] pid).1 =
      world.key)
    (hsig : authority.is_signer = true)
    (hauth : entry.authority = authority.key)
    (hlong : (∃ v, name = some v ∧ NAME_MAX_LEN < v.length) ∨
      (∃ v, endpoint = some v ∧ ENDPOINT_MAX_LEN < v.length) ∨
      (∃ v, metadata_uri = some v ∧ METADATA_URI_MAX_LEN < v.length)) :
    updateWorld env pid (world :: authority :: rest) name endpoint
      game_port asset_port token_mint dbc_pool metadata_uri =
      .error (ProgramError.Custom 4) := by
  unfold updateWorld
  rcases hlong with ⟨v, hv, hlen⟩ | ⟨v, hv, hlen⟩ | ⟨v, hv, hlen⟩
  · subst hv
    simp [hsig, howner, hdec, hmagic, hver, hpda, hauth, patchString,
      hlen, RegistryError.toProgramError, RegistryError.code]
  · subst hv
    simp [hsig, howner, hdec, hmagic, hver, hpda, hauth,
      patchString, hlen, RegistryError.toProgramError,
      RegistryError.code]
    split <;> rfl
  · subst hv
    simp [hsig, howner, hdec, hmagic, hver, hpda, hauth,
      patchString, hlen, RegistryError.toProgramError,
      RegistryError.code]
    split <;> first | rfl | (split <;> rfl)

/-- C3: a Register whose supplied name/endpoint/metadata_uri exceeds its cap
(32/64/128 bytes) fails with StringTooLong (custom error 4) before touching
any account, so nothing is allocated; an Update supplying an over-cap string
on an otherwise valid record also fails with StringTooLong and leaves the
stored bytes unchanged. -/
theorem C3_string_too_long_no_mutation :
    (∀ (env : HostEnv) (pid : Bytes) (accounts : List AccountInfo)
        (world_id name endpoint : Bytes) (game_port : Nat)
        (asset_port : Option Nat) (token_mint dbc_pool : Option Bytes)
        (metadata_uri : Bytes),
      (NAME_MAX_LEN < name.length ∨ ENDPOINT_MAX_LEN < endpoint.length ∨
        METADATA_URI_MAX_LEN < metadata_uri.length) →
      registerWorld env pid accounts world_id name endpoint game_port
        asset_port token_mint dbc_pool metadata_uri =
        .error (ProgramError.Custom 4) ∧
      applyResult accounts
        (registerWorld env pid accounts world_id name endpoint game_port
          asset_port token_mint dbc_pool metadata_uri) = accounts) ∧
    (∀ (env : HostEnv) (pid : Bytes) (world authority : AccountInfo)
        (rest : List AccountInfo) (entry : WorldEntry)
        (name endpoint : Option Bytes) (game_port : Option Nat)
        (asset_port : Option (Option Nat))
        (token_mint dbc_pool : Option (Option Bytes))
        (metadata_uri : Option Bytes),
      deserializeWorldEntry world.data = some entry →
      entry.magic = WORLD_ENTRY_MAGIC →
      entry.version = WORLD_ENTRY_VERSION →
      world.owner = pid →
      (env.findProgramAddress [SEED_WORLD, entry.world_id] pid).1 =
        world.key →
      authority.is_signer = true →
      entry.authority = authority.key →
      ((∃ v, name = some v ∧ NAME_MAX_LEN < v.length) ∨
       (∃ v, endpoint = some v ∧ ENDPOINT_MAX_LEN < v.length) ∨
       (∃ v, metadata_uri = some v ∧ METADATA_URI_MAX_LEN < v.length)) →
      updateWorld env pid (world :: authority :: rest) name endpoint
        game_port asset_port token_mint dbc_pool metadata_uri =
        .error (ProgramError.Custom 4) ∧
      applyResult (world :: authority :: rest)
        (updateWorld env pid (world :: authority :: rest) name endpoint
          game_port asset_port token_mint dbc_pool metadata_uri) =
        world :: authority :: rest) := by
  constructor
  · intro env pid accounts world_id name endpoint game_port asset_port
      token_mint dbc_pool metadata_uri hlong
    have hr := registerWorld_string_too_long env pid accounts world_id name
      endpoint game_port asset_port token_mint dbc_pool metadata_uri hlong
    exact ⟨hr, by simp [applyResult, hr]⟩
  · intro env pid world authority rest entry name endpoint game_port
      asset_port token_mint dbc_pool metadata_uri hdec hmagic hver howner
      hpda hsig hauth hlong
    have hu := updateWorld_string_too_long env pid world authority rest entry
      name endpoint game_port asset_port token_mint dbc_pool metadata_uri
      hdec hmagic hver howner hpda hsig hauth hlong
    exact ⟨hu, by simp [applyResult, hu]⟩

/-- C8: the instruction decoder does no string-length validation — a buffer
that decodes to Register with an over-cap string is processed to
StringTooLong (custom error 4), and likewise for Update on an otherwise
valid record — while any buffer the decoder rejects makes processing fail
with InvalidInstructionData (and that is the only decode error). -/
theorem C8_decode_defers_length_checks :
    (∀ (env : HostEnv) (pid : Bytes) (accounts : List AccountInfo)
        (buf world_id name endpoint : Bytes) (game_port : Nat)
        (asset_port : Option Nat) (token_mint dbc_pool : Option Bytes)
        (metadata_uri : Bytes),
      decode buf = .ok (.RegisterWorld world_id name endpoint game_port
        asset_port token_mint dbc_pool metadata_uri) →
      (NAME_MAX_LEN < name.length ∨ ENDPOINT_MAX_LEN < endpoint.length ∨
        METADATA_URI_MAX_LEN < metadata_uri.length) →
      process env pid accounts buf = .error (ProgramError.Custom 4)) ∧
    (∀ (env : HostEnv) (pid : Bytes) (world authority : AccountInfo)
        (rest : List AccountInfo) (entry : WorldEntry) (buf : Bytes)
        (name endpoint : Option Bytes) (game_port : Option Nat)
        (asset_port : Option (Option Nat))
        (token_mint dbc_pool : Option (Option Bytes))
        (metadata_uri : Option Bytes),
      decode buf = .ok (.UpdateWorld name endpoint game_port asset_port
        token_mint dbc_pool metadata_uri) →
      deserializeWorldEntry world.data = some entry →
      entry.magic = WORLD_ENTRY_MAGIC →
      entry.version = WORLD_ENTRY_VERSION →
      world.owner = pid →
      (env.findProgramAddress [SEED_WORLD, entry.world_id] pid).1 =
        world.key →
      authority.is_signer = true →
      entry.authority = authority.key →
      ((∃ v, name = some v ∧ NAME_MAX_LEN < v.length) ∨
       (∃ v, endpoint = some v ∧ ENDPOINT_MAX_LEN < v.length) ∨
       (∃ v, metadata_uri = some v ∧ METADATA_URI_MAX_LEN < v.length)) →
      process env pid (world :: authority :: rest) buf =
        .error (ProgramError.Custom 4)) ∧
    (∀ (buf : Bytes) (e : ProgramError), decode buf = .error e →
      e = ProgramError.InvalidInstructionData) ∧
    (∀ (env : HostEnv) (pid : Bytes) (accounts : List AccountInfo)
        (buf : Bytes) (e : ProgramError), decode buf = .error e →
      process env pid accounts buf =
        .error ProgramError.InvalidInstructionData) := by
  have herr : ∀ (buf : Bytes) (e : ProgramError), decode buf = .error e →
      e = ProgramError.InvalidInstructionData := by
    intro buf e h
    unfold decode at h
    split at h
    · simp at h
    · simp only [Except.error.injEq] at h
      exact h.symm
  refine ⟨?_, ?_, herr, ?_⟩
  · intro env pid accounts buf world_id name endpoint game_port asset_port
      token_mint dbc_pool metadata_uri hdec hlong
    unfold process
    rw [hdec]
    exact registerWorld_string_too_long env pid accounts world_id name
      endpoint game_port asset_port token_mint dbc_pool metadata_uri hlong
  · intro env pid world authority rest entry buf name endpoint game_port
      asset_port token_mint dbc_pool metadata_uri hdec hds hmagic hver
      howner hpda hsig hauth hlong
    unfold process
    rw [hdec]
    exact updateWorld_string_too_long env pid world authority rest entry
      name endpoint game_port asset_port token_mint dbc_pool metadata_uri
      hds hmagic hver howner hpda hsig hauth hlong
  · intro env pid accounts buf e h
    unfold process
    rw [h, herr buf e h]

theorem registeredEntry_WF (env : HostEnv) (pid wid akey : Bytes) (gp : Nat)
    (ap : Option Nat) (tm dp : Option Bytes) (nameB epB muB : Bytes)
    (hwid : wid.length = 16) (hkey : akey.length = 32)
    (hnb : nameB.length = NAME_LEN) (heb : epB.length = ENDPOINT_LEN)
    (hmb : muB.length = METADATA_URI_LEN) (hgp : gp < 65536)
    (hap : ∀ p, ap = some p → p < 65536)
    (htm : ∀ v, tm = some v → v.length = 32)
    (hdp : ∀ v, dp = some v → v.length = 32)
    (hslot : env.clockSlot < 18446744073709551616) :
    (registeredEntry env pid wid akey gp ap tm dp nameB epB muB).WF := by
  refine ⟨by simp [registeredEntry, WORLD_ENTRY_MAGIC], hwid, hkey, hnb, heb,
    ?_, ?_, hmb, hgp, ?_, hslot⟩
  · cases tm with
    | none => simp [registeredEntry]
    | some v => simpa [registeredEntry] using htm v rfl
  · cases dp with
    | none => simp [registeredEntry]
    | some v => simpa [registeredEntry] using hdp v rfl
  · cases ap with
    | none => simp [registeredEntry]
    | some p => simpa [registeredEntry] using hap p rfl

theorem registerWorld_succeeds (env : HostEnv) (pid : Bytes)
    (payer world authority sys : AccountInfo) (rest : List AccountInfo)
    (world_id name endpoint : Bytes) (game_port : Nat)
    (asset_port : Option Nat) (token_mint dbc_pool : Option Bytes)
    (metadata_uri : Bytes)
    (hname : name.length ≤ NAME_MAX_LEN)
    (hep : endpoint.length ≤ ENDPOINT_MAX_LEN)
    (hmu : metadata_uri.length ≤ METADATA_URI_MAX_LEN)
    (hpsig : payer.is_signer = true) (hasig : authority.is_signer = true)
    (hsys : sys.key = systemProgramId)
    (hpda : (env.findProgramAddress [SEED_WORLD, world_id] pid).1 =
      world.key)
    (hlam : world.lamports = 0)
    (hfund : env.rentMinimumBalance WorldEntry.LEN ≤ payer.lamports)
    (hwid : world_id.length = 16) (hkey : authority.key.length = 32)
    (hgp : game_port < 65536)
    (hap : ∀ p, asset_port = some p → p < 65536)
    (htm : ∀ v, token_mint = some v → v.length = 32)
    (hdp : ∀ v, dbc_pool = some v → v.length = 32)
    (hslot : env.clockSlot < 18446744073709551616) :
    registerWorld env pid (payer :: world :: authority :: sys :: rest)
      world_id name endpoint game_port asset_port token_mint dbc_pool
      metadata_uri =
    .ok ({ payer with
            lamports := payer.lamports -
              env.rentMinimumBalance WorldEntry.LEN } ::
         { world with
            lamports := env.rentMinimumBalance WorldEntry.LEN,
            owner := pid,
            data := serializeWorldEntry (registeredEntry env pid world_id
              authority.key game_port asset_port token_mint dbc_pool
              (name ++ List.replicate (NAME_LEN - name.length) 0)
              (endpoint ++ List.replicate (ENDPOINT_LEN - endpoint.length) 0)
              (metadata_uri ++
                List.replicate (METADATA_URI_LEN - metadata_uri.length) 0)) } ::
         authority :: sys :: rest) := by
  have hname' : name.length ≤ NAME_LEN := by
    rw [NAME_MAX_LEN] at hname
    rw [NAME_LEN]
    omega
  have hep' : endpoint.length ≤ ENDPOINT_LEN := by
    rw [ENDPOINT_MAX_LEN] at hep
    rw [ENDPOINT_LEN]
    omega
  have hmu' : metadata_uri.length ≤ METADATA_URI_LEN := by
    rw [METADATA_URI_MAX_LEN] at hmu
    rw [METADATA_URI_LEN]
    omega
  have hwf := registeredEntry_WF env pid world_id authority.key game_port
    asset_port token_mint dbc_pool
    (name ++ List.replicate (NAME_LEN - name.length) 0)
    (endpoint ++ List.replicate (ENDPOINT_LEN - endpoint.length) 0)
    (metadata_uri ++ List.replicate (METADATA_URI_LEN - metadata_uri.length) 0)
    hwid hkey (by simp; omega) (by simp; omega) (by simp; omega)
    hgp hap htm hdp hslot
  have hlen := serializeWorldEntry_length _ hwf
  unfold registerWorld
  rw [if_neg (by omega)]
  simp only [hpsig, hasig, hsys, hpda, hlam]
  rw [if_neg (by simp)]
  rw [if_neg (by simp)]
  rw [if_neg (by simp)]
  rw [if_neg (by omega)]
  unfold createAccount
  rw [if_neg (by omega)]
  simp only []
  rw [write_fixed_string_of_le hname', write_fixed_string_of_le hep',
    write_fixed_string_of_le hmu']
  simp only []
  rw [writeSerialized_exact (by simp [hlen])]
  simp [List.set, hpsig]

/-- C4: a successful Delist commits, in one all-or-nothing step, exactly
this state: the authority balance grows by the storage account's prior
balance, the storage balance becomes zero, and every stored data byte
becomes zero (the data length is preserved). -/
theorem C4_delist_drains_and_zeroes (env : HostEnv) (pid : Bytes)
    (world authority : AccountInfo) (rest accs2 : List AccountInfo)
    (h : delistWorld env pid (world :: authority :: rest) = .ok accs2) :
    accs2 = { world with
                lamports := 0,
                data := world.data.map (fun _ => 0) } ::
            { authority with
                lamports := authority.lamports + world.lamports } :: rest ∧
    (accs2.get! 1).lamports = authority.lamports + world.lamports ∧
    (accs2.get! 0).lamports = 0 ∧
    (∀ b ∈ (accs2.get! 0).data, b = 0) ∧
    (accs2.get! 0).data.length = world.data.length := by
  obtain ⟨w, a, r, entry, heq, hdec, hov, hres⟩ := delistWorld_ok h
  injection heq with h1 h2
  injection h2 with h2 h3
  subst h1 h2 h3 hres
  refine ⟨rfl, rfl, rfl, ?_, by simp⟩
  intro b hb
  simp only [List.get!, List.mem_map] at hb
  obtain ⟨x, hx, hxb⟩ := hb
  exact hxb.symm

/-- C5: every successful Register stores a record whose authority is the
signing authority's key and whose last_update_slot is the host clock's
current slot; when asset_port is omitted the stored asset_port is 0, and
when token_mint or dbc_pool is omitted the stored value is the all-zero
32-byte sentinel. -/
theorem C5_register_writes_signer_clock_defaults (env : HostEnv)
    (pid : Bytes) (payer world authority sys : AccountInfo)
    (rest accs2 : List AccountInfo) (world_id name endpoint : Bytes)
    (game_port : Nat) (asset_port : Option Nat)
    (token_mint dbc_pool : Option Bytes) (metadata_uri : Bytes)
    (hwid : world_id.length = 16) (hkey : authority.key.length = 32)
    (hgp : game_port < 65536)
    (hap : ∀ p, asset_port = some p → p < 65536)
    (htm : ∀ v, token_mint = some v → v.length = 32)
    (hdp : ∀ v, dbc_pool = some v → v.length = 32)
    (hslot : env.clockSlot < 18446744073709551616)
    (h : registerWorld env pid (payer :: world :: authority :: sys :: rest)
      world_id name endpoint game_port asset_port token_mint dbc_pool
      metadata_uri = .ok accs2) :
    ∃ e, deserializeWorldEntry ((accs2.get! 1).data) = some e ∧
      e.authority = authority.key ∧
      e.last_update_slot = env.clockSlot ∧
      (asset_port = none → e.asset_port = 0) ∧
      (token_mint = none → e.token_mint = List.replicate 32 0) ∧
      (dbc_pool = none → e.dbc_pool = List.replicate 32 0) := by
  obtain ⟨p, w, a, s, r, nameB, epB, muB, d, heq, hlam0, hpda, hn, he, hm,
    hw, hres⟩ := registerWorld_ok h
  injection heq with h1 h2
  injection h2 with h2 h3
  injection h3 with h3 h4
  injection h4 with h4 h5
  subst h1 h2 h3 h4 h5 hres
  have hwf := registeredEntry_WF env pid world_id authority.key game_port
    asset_port token_mint dbc_pool nameB epB muB hwid hkey
    (write_fixed_string_length hn) (write_fixed_string_length he)
    (write_fixed_string_length hm) hgp hap htm hdp hslot
  have hlen := serializeWorldEntry_length _ hwf
  rw [writeSerialized_exact (by simp [hlen])] at hw
  simp only [Option.some.injEq] at hw
  subst hw
  refine ⟨registeredEntry env pid world_id authority.key game_port
    asset_port token_mint dbc_pool nameB epB muB, ?_, rfl, rfl, ?_, ?_, ?_⟩
  · simp only [List.get!]
    exact deserialize_serialize _ hwf
  · intro hnone
    subst hnone
    rfl
  · intro hnone
    subst hnone
    rfl
  · intro hnone
    subst hnone
    rfl

/-- C6: with Register's other preconditions in place (caps respected, both
signatures present, correct system program, derived address matching, payer
funded, arguments of the machine shapes the Rust types enforce), a target
storage holding a nonzero balance makes the operation fail with
AlreadyInitialized (custom error 5), while a zero balance lets the
registration proceed. -/
theorem C6_zero_balance_gate (env : HostEnv) (pid : Bytes)
    (payer world authority sys : AccountInfo) (rest : List AccountInfo)
    (world_id name endpoint : Bytes) (game_port : Nat)
    (asset_port : Option Nat) (token_mint dbc_pool : Option Bytes)
    (metadata_uri : Bytes)
    (hname : name.length ≤ NAME_MAX_LEN)
    (hep : endpoint.length ≤ ENDPOINT_MAX_LEN)
    (hmu : metadata_uri.length ≤ METADATA_URI_MAX_LEN)
    (hpsig : payer.is_signer = true) (hasig : authority.is_signer = true)
    (hsys : sys.key = systemProgramId)
    (hpda : (env.findProgramAddress [SEED_WORLD, world_id] pid).1 =
      world.key)
    (hfund : env.rentMinimumBalance WorldEntry.LEN ≤ payer.lamports)
    (hwid : world_id.length = 16) (hkey : authority.key.length = 32)
    (hgp : game_port < 65536)
    (hap : ∀ p, asset_port = some p → p < 65536)
    (htm : ∀ v, token_mint = some v → v.length = 32)
    (hdp : ∀ v, dbc_pool = some v → v.length = 32)
    (hslot : env.clockSlot < 18446744073709551616) :
    (0 < world.lamports →
      registerWorld env pid (payer :: world :: authority :: sys :: rest)
        world_id name endpoint game_port asset_port token_mint dbc_pool
        metadata_uri = .error (ProgramError.Custom 5)) ∧
    (world.lamports = 0 →
      ∃ accs2,
        registerWorld env pid (payer :: world :: authority :: sys :: rest)
          world_id name endpoint game_port asset_port token_mint dbc_pool
          metadata_uri = .ok accs2) := by
  constructor
  · intro h0
    unfold registerWorld
    rw [if_neg (by omega)]
    simp only [hpsig, hasig, hsys, hpda]
    rw [if_neg (by simp)]
    rw [if_neg (by simp)]
    rw [if_neg (by simp)]
    rw [if_pos (by omega)]
    simp [RegistryError.toProgramError, RegistryError.code]
  · intro h0
    exact ⟨_, registerWorld_succeeds env pid payer world authority sys rest
      world_id name endpoint game_port asset_port token_mint dbc_pool
      metadata_uri hname hep hmu hpsig hasig hsys hpda h0 hfund hwid hkey
      hgp hap htm hdp hslot⟩

/-- A never-used storage account at a given address: zero balance, no data,
owned by the system program. -/
def freshAccount (k : Bytes) : AccountInfo :=
  { key := k, is_signer := false, lamports := 0, owner := systemProgramId,
    data := [] }

/-- C7: after a successful Delist of a world's record, Register for the same
world id (any payer and authority, Register's preconditions met) behaves
exactly as on a never-used storage account — it returns the very same
result, and it succeeds. -/
theorem C7_delist_then_register_as_fresh (env env2 : HostEnv) (pid : Bytes)
    (world authority : AccountInfo) (rest accs2 : List AccountInfo)
    (payer auth2 sys : AccountInfo) (rest2 : List AccountInfo)
    (world_id name endpoint : Bytes) (game_port : Nat)
    (asset_port : Option Nat) (token_mint dbc_pool : Option Bytes)
    (metadata_uri : Bytes)
    (hdel : delistWorld env pid (world :: authority :: rest) = .ok accs2)
    (hws : world.is_signer = false)
    (hname : name.length ≤ NAME_MAX_LEN)
    (hep : endpoint.length ≤ ENDPOINT_MAX_LEN)
    (hmu : metadata_uri.length ≤ METADATA_URI_MAX_LEN)
    (hpsig : payer.is_signer = true) (hasig : auth2.is_signer = true)
    (hsys : sys.key = systemProgramId)
    (hpda : (env2.findProgramAddress [SEED_WORLD, world_id] pid).1 =
      world.key)
    (hfund : env2.rentMinimumBalance WorldEntry.LEN ≤ payer.lamports)
    (hwid : world_id.length = 16) (hkey : auth2.key.length = 32)
    (hgp : game_port < 65536)
    (hap : ∀ p, asset_port = some p → p < 65536)
    (htm : ∀ v, token_mint = some v → v.length = 32)
    (hdp : ∀ v, dbc_pool = some v → v.length = 32)
    (hslot : env2.clockSlot < 18446744073709551616) :
    registerWorld env2 pid (payer :: accs2.get! 0 :: auth2 :: sys :: rest2)
      world_id name endpoint game_port asset_port token_mint dbc_pool
      metadata_uri =
    registerWorld env2 pid
      (payer :: freshAccount world.key :: auth2 :: sys :: rest2)
      world_id name endpoint game_port asset_port token_mint dbc_pool
      metadata_uri ∧
    ∃ accs3,
      registerWorld env2 pid (payer :: accs2.get! 0 :: auth2 :: sys :: rest2)
        world_id name endpoint game_port asset_port token_mint dbc_pool
        metadata_uri = .ok accs3 := by
  obtain ⟨w, a, r, entry, heq, hdec, hov, hres⟩ := delistWorld_ok hdel
  injection heq with h1 h2
  injection h2 with h2 h3
  subst h1 h2 h3 hres
  have hget : ({ world with
      lamports := 0,
      data := world.data.map (fun _ => 0) } ::
    { authority with
      lamports := authority.lamports + world.lamports } :: rest).get! 0 =
      { world with
          lamports := 0,
          data := world.data.map (fun _ => 0) } := rfl
  rw [hget]
  have e1 := registerWorld_succeeds env2 pid payer
    { world with lamports := 0, data := world.data.map (fun _ => 0) } auth2
    sys rest2 world_id name endpoint game_port asset_port token_mint
    dbc_pool metadata_uri hname hep hmu hpsig hasig hsys hpda rfl hfund
    hwid hkey hgp hap htm hdp hslot
  have e2 := registerWorld_succeeds env2 pid payer (freshAccount world.key)
    auth2 sys rest2 world_id name endpoint game_port asset_port token_mint
    dbc_pool metadata_uri hname hep hmu hpsig hasig hsys hpda rfl hfund
    hwid hkey hgp hap htm hdp hslot
  rw [e1, e2]
  exact ⟨by simp [freshAccount, hws], _, rfl⟩

/-- C10: a successful Update leaves magic, version, bump, world_id and
authority exactly as they were; only the patchable fields (name, endpoint,
game_port, asset_port, token_mint, dbc_pool, metadata_uri) and
last_update_slot can change. -/
theorem C10_update_preserves_identity_fields (env : HostEnv) (pid : Bytes)
    (world authority : AccountInfo) (rest accs2 : List AccountInfo)
    (entry : WorldEntry) (name endpoint : Option Bytes)
    (game_port : Option Nat) (asset_port : Option (Option Nat))
    (token_mint dbc_pool : Option (Option Bytes))
    (metadata_uri : Option Bytes)
    (hdec : deserializeWorldEntry world.data = some entry)
    (hbytes : ∀ x ∈ world.data, x < 256)
    (hgp : ∀ p, game_port = some p → p < 65536)
    (hap : ∀ p, asset_port = some (some p) → p < 65536)
    (htm : ∀ v, token_mint = some (some v) → v.length = 32)
    (hdp : ∀ v, dbc_pool = some (some v) → v.length = 32)
    (hslot : env.clockSlot < 18446744073709551616)
    (h : updateWorld env pid (world :: authority :: rest) name endpoint
      game_port asset_port token_mint dbc_pool metadata_uri = .ok accs2) :
    ∃ e2, deserializeWorldEntry ((accs2.get! 0).data) = some e2 ∧
      e2.magic = entry.magic ∧ e2.version = entry.version ∧
      e2.bump = entry.bump ∧ e2.world_id = entry.world_id ∧
      e2.authority = entry.authority := by
  obtain ⟨w, a, r, entry', name2, endpoint2, metadata2, d, heq, hdec2, hn,
    he, hm, hw, hres⟩ := updateWorld_ok h
  injection heq with h1 h2
  injection h2 with h2 h3
  subst h1 h2 h3 hres
  rw [hdec] at hdec2
  simp only [Option.some.injEq] at hdec2
  subst hdec2
  obtain ⟨hblen, hmg8, hw16, ha32, hn32, he64, ht32, hd32, hmu128, hWFf⟩ :=
    deserializeWorldEntry_inv hdec
  have hwf := hWFf hbytes
  have hwf2 : (patchedEntry env entry name2 endpoint2 metadata2 game_port
      asset_port token_mint dbc_pool).WF := by
    obtain ⟨w1, w2, w3, w4, w5, w6, w7, w8, w9, w10, w11⟩ := hwf
    refine ⟨hmg8, hw16, ha32, patchString_length hn32 hn,
      patchString_length he64 he, ?_, ?_, patchString_length hmu128 hm,
      ?_, ?_, hslot⟩
    · cases token_mint with
      | none => exact ht32
      | some v =>
        cases v with
        | none => simp [patchedEntry]
        | some u => simpa [patchedEntry] using htm u rfl
    · cases dbc_pool with
      | none => exact hd32
      | some v =>
        cases v with
        | none => simp [patchedEntry]
        | some u => simpa [patchedEntry] using hdp u rfl
    · cases game_port with
      | none => exact w9
      | some p => simpa [patchedEntry] using hgp p rfl
    · cases asset_port with
      | none => exact w10
      | some v =>
        cases v with
        | none => simp [patchedEntry]
        | some p => simpa [patchedEntry] using hap p rfl
  have hlen2 := serializeWorldEntry_length _ hwf2
  rw [writeSerialized_exact (by rw [hlen2, hblen]; rfl)] at hw
  simp only [Option.some.injEq] at hw
  subst hw
  exact ⟨patchedEntry env entry name2 endpoint2 metadata2 game_port
    asset_port token_mint dbc_pool,
    deserialize_serialize _ hwf2, rfl, rfl, rfl, rfl, rfl⟩

deriving instance DecidableEq for Except

def pid0 : Bytes := List.replicate 32 5

def worldKey0 : Bytes := List.replicate 32 3

def authKeyA : Bytes := List.replicate 32 9

def authKeyB : Bytes := List.replicate 32 8

def payerKey0 : Bytes := List.replicate 32 2

/-- A concrete host: PDA search returns a fixed address/bump, clock at slot
77, rent minimum 100 lamports. -/
def env0 : HostEnv :=
  { findProgramAddress := fun _ _ => (worldKey0, 254),
    clockSlot := 77,
    rentMinimumBalance := fun _ => 100 }

def wid0 : Bytes := List.replicate 16 7

def entry0 : WorldEntry :=
  { magic := WORLD_ENTRY_MAGIC,
    version := 1,
    bump := 254,
    world_id := wid0,
    authority := authKeyA,
    name := List.replicate 32 0,
    endpoint := List.replicate 64 0,
    game_port := 7777,
    asset_port := 0,
    token_mint := List.replicate 32 0,
    dbc_pool := List.replicate 32 0,
    metadata_uri := List.replicate 128 0,
    last_update_slot := 5 }

def world0 : AccountInfo :=
  { key := worldKey0, is_signer := false, lamports := 1000, owner := pid0,
    data := serializeWorldEntry entry0 }

def authA : AccountInfo :=
  { key := authKeyA, is_signer := true, lamports := 50,
    owner := systemProgramId, data := [] }

def authB : AccountInfo :=
  { key := authKeyB, is_signer := true, lamports := 50,
    owner := systemProgramId, data := [] }

def payer0 : AccountInfo :=
  { key := payerKey0, is_signer := true, lamports := 5000,
    owner := systemProgramId, data := [] }

def sys0 : AccountInfo :=
  { key := systemProgramId, is_signer := false, lamports := 1,
    owner := systemProgramId, data := [] }

def worldFresh0 : AccountInfo := freshAccount worldKey0

def worldBusy0 : AccountInfo :=
  { key := worldKey0, is_signer := false, lamports := 555,
    owner := systemProgramId, data := [] }

def worldEmpty0 : AccountInfo :=
  { key := worldKey0, is_signer := false, lamports := 10, owner := pid0,
    data := [] }

def longName0 : Bytes := List.replicate 33 97

def name0 : Bytes := [104, 111, 109, 101]

def endpoint0 : Bytes := [49, 50, 55]

def mu0 : Bytes := []

def delisted0 : List AccountInfo :=
  [{ world0 with lamports := 0, data := world0.data.map (fun _ => 0) },
   { authA with lamports := authA.lamports + world0.lamports }]

def registered0 : List AccountInfo :=
  applyResult [] (registerWorld env0 pid0 [payer0, worldFresh0, authA, sys0]
    wid0 name0 endpoint0 7777 none none none mu0)

def registered1 : List AccountInfo :=
  applyResult [] (registerWorld env0 pid0 [payer0, worldFresh0, authA, sys0]
    wid0 name0 endpoint0 7777 (some 9999) (some (List.replicate 32 4))
    (some (List.replicate 32 6)) mu0)

def updated0 : List AccountInfo :=
  applyResult [] (updateWorld env0 pid0 [world0, authA] (some name0) none
    none none none none none)

set_option maxRecDepth 10000

/-- Witness for C1 at concrete inputs: key B signs against a record whose
stored authority is key A. -/
theorem C1_witness :
    updateWorld env0 pid0 [world0, authB] none none none none none none
      none = .error (ProgramError.Custom 3) ∧
    applyResult [world0, authB]
      (updateWorld env0 pid0 [world0, authB] none none none none none none
        none) = [world0, authB] ∧
    delistWorld env0 pid0 [world0, authB] = .error (ProgramError.Custom 3) ∧
    applyResult [world0, authB] (delistWorld env0 pid0 [world0, authB]) =
      [world0, authB] :=
  C1_unauthorized_signer_rejected env0 pid0 world0 authB [] entry0
    (by decide) rfl rfl rfl rfl rfl (by decide) none none none none none
    none none

/-- Witness for C2 at a concrete record. -/
theorem C2_witness :
    entry0.WF ∧
    ((serializeWorldEntry entry0).length = WorldEntry.LEN ∧
     WorldEntry.LEN =
       8 + 1 + 1 + 16 + 32 + NAME_LEN + ENDPOINT_LEN + 2 + 2 + 32 + 32 +
         METADATA_URI_LEN + 8 ∧
     deserializeWorldEntry (serializeWorldEntry entry0) = some entry0) :=
  ⟨by decide, C2_record_codec_roundtrip entry0 (by decide)⟩

/-- Witness for C3: an over-cap (33-byte) name rejected by Register and by
Update. -/
theorem C3_witness :
    registerWorld env0 pid0 [payer0, worldFresh0, authA, sys0] wid0
      longName0 endpoint0 7777 none none none mu0 =
      .error (ProgramError.Custom 4) ∧
    updateWorld env0 pid0 [world0, authA] (some longName0) none none none
      none none none = .error (ProgramError.Custom 4) :=
  ⟨(C3_string_too_long_no_mutation.1 env0 pid0
      [payer0, worldFresh0, authA, sys0] wid0 longName0 endpoint0 7777 none
      none none mu0 (Or.inl (by decide))).1,
   (C3_string_too_long_no_mutation.2 env0 pid0 world0 authA [] entry0
      (some longName0) none none none none none none (by decide) rfl rfl
      rfl rfl rfl rfl (Or.inl ⟨longName0, rfl, by decide⟩)).1⟩

/-- Witness for C4 at a concrete successful delist. -/
theorem C4_witness :
    delisted0 =
      { world0 with
          lamports := 0,
          data := world0.data.map (fun _ => 0) } ::
      { authA with lamports := authA.lamports + world0.lamports } :: [] ∧
    (delisted0.get! 1).lamports = authA.lamports + world0.lamports ∧
    (delisted0.get! 0).lamports = 0 ∧
    (∀ b ∈ (delisted0.get! 0).data, b = 0) ∧
    (delisted0.get! 0).data.length = world0.data.length :=
  C4_delist_drains_and_zeroes env0 pid0 world0 authA [] delisted0
    (by decide)

/-- Witness for C5 at two concrete successful registrations: one omitting
every optional argument (exercising the sentinel defaults) and one
supplying asset_port, token_mint and dbc_pool (the signer/clock guarantees
still hold). -/
theorem C5_witness :
    (∃ e, deserializeWorldEntry ((registered0.get! 1).data) = some e ∧
      e.authority = authA.key ∧
      e.last_update_slot = env0.clockSlot ∧
      (none = (none : Option Nat) → e.asset_port = 0) ∧
      (none = (none : Option Bytes) → e.token_mint = List.replicate 32 0) ∧
      (none = (none : Option Bytes) → e.dbc_pool = List.replicate 32 0)) ∧
    (∃ e, deserializeWorldEntry ((registered1.get! 1).data) = some e ∧
      e.authority = authA.key ∧
      e.last_update_slot = env0.clockSlot ∧
      (some 9999 = (none : Option Nat) → e.asset_port = 0) ∧
      (some (List.replicate 32 4) = (none : Option Bytes) →
        e.token_mint = List.replicate 32 0) ∧
      (some (List.replicate 32 6) = (none : Option Bytes) →
        e.dbc_pool = List.replicate 32 0)) :=
  ⟨C5_register_writes_signer_clock_defaults env0 pid0 payer0 worldFresh0
    authA sys0 [] registered0 wid0 name0 endpoint0 7777 none none none mu0
    (by decide) (by decide) (by decide) (by intro p hp; cases hp)
    (by intro v hv; cases hv) (by intro v hv; cases hv) (by decide)
    (by decide),
   C5_register_writes_signer_clock_defaults env0 pid0 payer0 worldFresh0
    authA sys0 [] registered1 wid0 name0 endpoint0 7777 (some 9999)
    (some (List.replicate 32 4)) (some (List.replicate 32 6)) mu0
    (by decide) (by decide) (by decide)
    (by intro p hp; simp at hp; omega)
    (by intro v hv; simp at hv; subst hv; decide)
    (by intro v hv; simp at hv; subst hv; decide) (by decide) (by decide)⟩

/-- Witness for C6: same registration against a funded slot (fails
AlreadyInitialized) and against a zero-balance slot (succeeds). -/
theorem C6_witness :
    registerWorld env0 pid0 [payer0, worldBusy0, authA, sys0] wid0 name0
      endpoint0 7777 none none none mu0 = .error (ProgramError.Custom 5) ∧
    ∃ accs2,
      registerWorld env0 pid0 [payer0, worldFresh0, authA, sys0] wid0 name0
        endpoint0 7777 none none none mu0 = .ok accs2 :=
  ⟨(C6_zero_balance_gate env0 pid0 payer0 worldBusy0 authA sys0 [] wid0
      name0 endpoint0 7777 none none none mu0 (by decide) (by decide)
      (by decide) rfl rfl rfl rfl (by decide) (by decide) (by decide)
      (by decide) (by intro p hp; cases hp) (by intro v hv; cases hv)
      (by intro v hv; cases hv) (by decide)).1 (by decide),
   (C6_zero_balance_gate env0 pid0 payer0 worldFresh0 authA sys0 [] wid0
      name0 endpoint0 7777 none none none mu0 (by decide) (by decide)
      (by decide) rfl rfl rfl rfl (by decide) (by decide) (by decide)
      (by decide) (by intro p hp; cases hp) (by intro v hv; cases hv)
      (by intro v hv; cases hv) (by decide)).2 rfl⟩

/-- Witness for C7: delist of the concrete record, then re-registration by
a different authority behaves as on a fresh slot and succeeds. -/
theorem C7_witness :
    registerWorld env0 pid0 [payer0, delisted0.get! 0, authB, sys0] wid0
      name0 endpoint0 7777 none none none mu0 =
    registerWorld env0 pid0 [payer0, freshAccount world0.key, authB, sys0]
      wid0 name0 endpoint0 7777 none none none mu0 ∧
    ∃ accs3,
      registerWorld env0 pid0 [payer0, delisted0.get! 0, authB, sys0] wid0
        name0 endpoint0 7777 none none none mu0 = .ok accs3 :=
  C7_delist_then_register_as_fresh env0 env0 pid0 world0 authA [] delisted0
    payer0 authB sys0 [] wid0 name0 endpoint0 7777 none none none mu0
    (by decide) rfl (by decide) (by decide) (by decide) rfl rfl rfl rfl
    (by decide) (by decide) (by decide) (by decide)
    (by intro p hp; cases hp) (by intro v hv; cases hv)
    (by intro v hv; cases hv) (by decide)

/-- A Register instruction buffer carrying a 33-byte name: the decoder
accepts it. -/
def bufRegLong0 : Bytes :=
  [0] ++ wid0 ++ [33, 0, 0, 0] ++ longName0 ++ [0, 0, 0, 0] ++ [0, 0] ++
  [0] ++ [0] ++ [0] ++ [0, 0, 0, 0]

/-- An Update instruction buffer setting a 33-byte name. -/
def bufUpdLong0 : Bytes :=
  [1] ++ [1] ++ [33, 0, 0, 0] ++ longName0 ++ [0] ++ [0] ++ [0] ++ [0] ++
  [0] ++ [0]

/-- A buffer decoding to no instruction variant. -/
def bufBad0 : Bytes := [9]

/-- Witness for C8: over-cap strings pass the decoder and are reported as
StringTooLong by processing, while an unrecognized buffer fails with
InvalidInstructionData. -/
theorem C8_witness :
    process env0 pid0 [] bufRegLong0 = .error (ProgramError.Custom 4) ∧
    process env0 pid0 [world0, authA] bufUpdLong0 =
      .error (ProgramError.Custom 4) ∧
    decode bufBad0 = .error ProgramError.InvalidInstructionData ∧
    process env0 pid0 [] bufBad0 =
      .error ProgramError.InvalidInstructionData :=
  ⟨C8_decode_defers_length_checks.1 env0 pid0 [] bufRegLong0 wid0 longName0
      [] 0 none none none [] (by decide) (Or.inl (by decide)),
   C8_decode_defers_length_checks.2.1 env0 pid0 world0 authA [] entry0
      bufUpdLong0 (some longName0) none none none none none none (by decide)
      (by decide) rfl rfl rfl rfl rfl rfl
      (Or.inl ⟨longName0, rfl, by decide⟩),
   by decide,
   C8_decode_defers_length_checks.2.2.2 env0 pid0 [] bufBad0
      ProgramError.InvalidInstructionData (by decide)⟩

/-- Witness for C9: an empty (undecodable) stored buffer makes Update and
Delist fail with InvalidAccountData. -/
theorem C9_witness :
    updateWorld env0 pid0 [worldEmpty0, authA] none none none none none
      none none = .error (ProgramError.Custom 6) ∧
    applyResult [worldEmpty0, authA]
      (updateWorld env0 pid0 [worldEmpty0, authA] none none none none none
        none none) = [worldEmpty0, authA] ∧
    delistWorld env0 pid0 [worldEmpty0, authA] =
      .error (ProgramError.Custom 6) ∧
    applyResult [worldEmpty0, authA]
      (delistWorld env0 pid0 [worldEmpty0, authA]) =
      [worldEmpty0, authA] :=
  C9_invalid_account_data_first env0 pid0 worldEmpty0 authA [] rfl rfl
    (Or.inl (by decide)) none none none none none none none

/-- Witness for C10 at a concrete successful update of the name field. -/
theorem C10_witness :
    ∃ e2, deserializeWorldEntry ((updated0.get! 0).data) = some e2 ∧
      e2.magic = entry0.magic ∧ e2.version = entry0.version ∧
      e2.bump = entry0.bump ∧ e2.world_id = entry0.world_id ∧
      e2.authority = entry0.authority :=
  C10_update_preserves_identity_fields env0 pid0 world0 authA [] updated0
    entry0 (some name0) none none none none none none (by decide)
    (by decide) (by intro p hp; cases hp) (by intro p hp; cases hp)
    (by intro v hv; cases hv) (by intro v hv; cases hv) (by decide)
    (by decide)
